import Mathlib

/-!
Verification development for the MiHSEF discord-bot tools
(`update_from_json/update_from_json.py` and `mihsef_snapshot/snapshot.py`).

The Python sources are shallowly embedded below.  Python dicts are modelled
as insertion-ordered association lists (`dinsert` replaces the value of an
existing key in place, like a Python dict assignment).  Machine-level ids
are `Int` (Discord snowflakes; arbitrary precision in Python).  Fallible
JSON access (`d.get(k)`) is modelled with `Option` fields.  Exception
control flow in the apply executor is modelled with explicit abort flags,
and every mutating API call is recorded in an operation trace together with
a failure oracle `fails : Nat -> Bool` that says whether the n-th issued
call raises.
-/

namespace Mihsef

/-! ## Python dict model -/

/-- Insert a key/value pair into an insertion-ordered association list,
replacing the value stored at an existing key (Python `d[k] = v`). -/
def dinsert {κ α : Type} [DecidableEq κ] (k : κ) (v : α) : List (κ × α) → List (κ × α)
  | [] => [(k, v)]
  | (k', v') :: rest => if k' = k then (k, v) :: rest else (k', v') :: dinsert k v rest

/-- Look up a key (Python `d.get(k)`); first match wins, and association
lists built by `dinsert` have unique keys. -/
def dlookup {κ α : Type} [DecidableEq κ] (k : κ) : List (κ × α) → Option α
  | [] => none
  | (k', v') :: rest => if k' = k then some v' else dlookup k rest

/-- Build a dict from a list, iterating left to right (Python dict
comprehension: a later duplicate key overwrites an earlier one). -/
def dictOf {κ α β : Type} [DecidableEq κ] (key : β → κ) (val : β → α) (xs : List β) :
    List (κ × α) :=
  xs.foldl (fun d x => dinsert (key x) (val x) d) []

/-- Python dict equality: same key set, equal values (order irrelevant). -/
def dictEq {κ α : Type} [DecidableEq κ] [DecidableEq α] (d1 d2 : List (κ × α)) : Bool :=
  d1.all (fun e => dlookup e.1 d2 == some e.2) && d2.all (fun e => dlookup e.1 d1 == some e.2)

/-! ## Permission codec

`discord.PermissionOverwrite` keeps a private dict of explicit entries
(`_values`): a permission name is mapped to `True`/`False` when explicitly
set and absent when unset/inherited.  Reading an attribute returns the
stored value or `None`; assigning `None` removes the entry.  Iterating an
overwrite yields every name of the permission vocabulary together with its
(possibly `None`) value.  The vocabulary is modelled by the enumeration in
`_overwrite_to_dict` of `update_from_json.py`. -/

/-- Complete list of known permission attributes, copied from
`_overwrite_to_dict` in `update_from_json.py` (lines 35-52). -/
def permission_attrs : List String :=
  ["create_instant_invite", "kick_members", "ban_members", "administrator",
   "manage_channels", "manage_guild", "add_reactions", "view_audit_log",
   "priority_speaker", "stream", "read_messages", "view_channel",
   "send_messages", "send_tts_messages", "manage_messages", "embed_links",
   "attach_files", "read_message_history", "mention_everyone",
   "use_external_emojis", "external_emojis", "view_guild_insights",
   "connect", "speak", "mute_members", "deafen_members",
   "move_members", "use_voice_activation", "change_nickname",
   "manage_nicknames", "manage_roles", "manage_webhooks",
   "manage_emojis", "use_slash_commands", "use_application_commands",
   "request_to_speak", "manage_events", "manage_threads",
   "create_public_threads", "use_public_threads", "create_private_threads",
   "use_private_threads", "use_external_stickers", "external_stickers",
   "send_messages_in_threads", "use_embedded_activities", "moderate_members",
   "create_events", "send_polls", "use_external_apps", "use_external_sounds",
   "use_soundboard", "send_voice_messages"]

/-- Permission vocabulary of the platform library (the valid attribute
names of a native `PermissionOverwrite`), modelled by the enumeration the
source itself carries. -/
def validPermNames : List String := permission_attrs

/-- Native permission overwrite: the explicit (non-inherited) entries. -/
structure PermissionOverwrite where
  values : List (String × Bool)
deriving DecidableEq, Repr

/-- Serialized permission record: a JSON object mapping permission names to
`true`, `false` or `null` (a stored `null` is `some (k, none)`, distinct
from an absent key). -/
abbrev PermRecord := List (String × Option Bool)

/-- Conversion of a `PermissionOverwrite` to a dict of explicit entries,
skipping entries that are `None` (`_overwrite_to_dict`,
`update_from_json.py` lines 28-57). -/
def overwrite_to_dict (po : PermissionOverwrite) : PermRecord :=
  permission_attrs.filterMap fun attr =>
    (dlookup attr po.values).map fun v => (attr, some v)

/-- Conversion of a `PermissionOverwrite` to a dict of
`{perm_name: true/false/null}` (`serialize_perms`, `snapshot.py` lines
17-22): iterating the overwrite yields every valid name with its possibly
absent value, and the loop stores that value unconditionally. -/
def serialize_perms (perm_overwrite : PermissionOverwrite) : PermRecord :=
  validPermNames.map fun name => (name, dlookup name perm_overwrite.values)

/-- Assignment to a `PermissionOverwrite` attribute: `setattr(po, a, v)`.
Assigning `None` removes the explicit entry. -/
def setPermAttr (po : PermissionOverwrite) (attr : String) (val : Option Bool) :
    PermissionOverwrite :=
  match val with
  | none => ⟨po.values.filter (fun e => e.1 ≠ attr)⟩
  | some b => ⟨dinsert attr b po.values⟩

/-- Build a native overwrite from a serialized record
(`update_from_json.py` lines 114-117): each entry whose name the builder
recognizes (`hasattr`) is assigned, unrecognized names are ignored. -/
def overwriteFromRecord (perms_dict : PermRecord) : PermissionOverwrite :=
  perms_dict.foldl
    (fun po e => if validPermNames.contains e.1 then setPermAttr po e.1 e.2 else po)
    ⟨[]⟩

/-! ## Data model of the live guild -/

/-- Subject of a channel- or category-level permission overwrite: a role or
a member (`isinstance(target, discord.Role)` discriminates; only the id is
consulted afterwards). -/
inductive OwSubject where
  | role (id : Int)
  | member (id : Int)
deriving DecidableEq, Repr

structure Role where
  id : Int
  name : String
  position : Int
  color : Nat
  hoist : Bool
  mentionable : Bool
  managed : Bool
  permissions : Nat
deriving DecidableEq, Repr

structure Category where
  id : Int
  name : String
  position : Int
  nsfw : Bool
  overwrites : List (OwSubject × PermissionOverwrite)
deriving DecidableEq, Repr

/-- Discriminated channel kind (text/voice/forum are the kinds
`_collect_current_named` recognizes). -/
inductive ChanType where
  | text
  | voice
  | forum
deriving DecidableEq, Repr

structure Channel where
  id : Int
  name : String
  type : ChanType
  position : Int
  categoryId : Option Int
  overwrites : List (OwSubject × PermissionOverwrite)
  nsfw : Bool
  slowmode_delay : Int
  topic : Option String
deriving DecidableEq, Repr

/-- Live guild state.  `channels` holds the non-category channels;
categories are kept separately (the Python code filters
`discord.CategoryChannel` out wherever the two would mix). -/
structure Guild where
  id : Int
  name : String
  ownerId : Int
  roles : List Role
  categories : List Category
  channels : List Channel
deriving DecidableEq, Repr

/-- Role lookup by id (`guild.get_role`). -/
def Guild.get_role (g : Guild) (rid : Int) : Option Role :=
  g.roles.find? (fun r => r.id = rid)

/-- The implicit everyone role (`guild.default_role`): the role whose id
equals the guild id. -/
def Guild.default_role (g : Guild) : Option Role :=
  g.roles.find? (fun r => r.id = g.id)

/-- Role lookup by name (`discord.utils.get(guild.roles, name=...)`):
first role carrying the name. -/
def Guild.role_by_name (g : Guild) (name : String) : Option Role :=
  g.roles.find? (fun r => r.name = name)

/-- Name-keyed dict of the guild's roles (`_collect_current_named`). -/
def rolesByName (g : Guild) : List (String × Role) :=
  dictOf Role.name id g.roles

/-- Name-keyed dict of the guild's categories (`_collect_current_named`). -/
def catsByName (g : Guild) : List (String × Category) :=
  dictOf Category.name id g.categories

/-- Name-keyed dict of the guild's text/voice/forum channels
(`_collect_current_named`); every modelled channel is one of those kinds. -/
def chansByName (g : Guild) : List (String × Channel) :=
  dictOf Channel.name id g.channels

/-! ## Snapshot document model

Snapshot JSON records, with `Option` for fields accessed through
`dict.get` (absent key and JSON `null` both read back as `None`; the
`topic` field distinguishes the two because the code tests `"topic" in ch`
separately from `ch["topic"] is not None`). -/

structure SnapRole where
  id : Option Int := none
  name : Option String := none
  position : Option Int := none
  color : Option Nat := none
  hoist : Option Bool := none
  mentionable : Option Bool := none
  managed : Option Bool := none
  permissions : Option Nat := none
deriving DecidableEq, Repr

structure SnapCategory where
  id : Option Int := none
  name : Option String := none
  position : Option Int := none
  nsfw : Option Bool := none
  overwrites : List (String × PermRecord) := []
deriving DecidableEq, Repr

structure SnapChannel where
  id : Option Int := none
  name : Option String := none
  type : Option String := none
  position : Option Int := none
  parent_id : Option Int := none
  overwrites : List (String × PermRecord) := []
  nsfw : Option Bool := none
  slowmode_delay : Option Int := none
  topic : Option (Option String) := none
deriving DecidableEq, Repr

/-- Parsed JSON document: each top-level collection is `none` when the key
is missing; unknown extra top-level keys are carried along untouched. -/
structure SnapshotDoc where
  roles : Option (List SnapRole) := none
  categories : Option (List SnapCategory) := none
  channels : Option (List SnapChannel) := none
  extraKeys : List String := []
deriving DecidableEq, Repr

/-- Deserialized snapshot contents as the command consumes them. -/
structure LoadedSnapshot where
  roles : List SnapRole
  categories : List SnapCategory
  channels : List SnapChannel
deriving DecidableEq, Repr

/-- Deserialization step of `update_from_json_cmd` (lines 309-319): a
payload that is not well-formed JSON (modelled as `none`) is reported
immediately; otherwise each top-level collection defaults to empty when
its key is missing (`data.get("roles", [])` and friends). -/
def loadDoc : Option SnapshotDoc → Except String LoadedSnapshot
  | none => .error "Could not parse JSON"
  | some d => .ok ⟨d.roles.getD [], d.categories.getD [], d.channels.getD []⟩

/-! ## Subject-key parsing and the name/identity resolver -/

/-- Split a character list at every colon. -/
def splitColonChars : List Char → List (List Char)
  | [] => [[]]
  | c :: rest =>
    let r := splitColonChars rest
    if c = ':' then [] :: r
    else
      match r with
      | [] => [[c]]
      | h :: t => (c :: h) :: t

/-- Python `s.split(":")` unpacked into exactly two pieces; any other
number of pieces raises `ValueError`, which the caller turns into a skip. -/
def pySplitColon (s : String) : Option (String × String) :=
  match splitColonChars s.toList with
  | [a, b] => some (String.mk a, String.mk b)
  | _ => none

/-- Digit run to a number; fails on an empty or non-digit run. -/
def digitsToNat : List Char → Option Nat
  | [] => none
  | cs =>
    cs.foldl
      (fun acc c =>
        acc.bind fun n => if c.isDigit then some (n * 10 + (c.toNat - 48)) else none)
      (some 0)

/-- Python `int(s)` on the strings that occur as overwrite subject ids:
surrounding spaces are stripped, an optional sign is accepted, the rest
must be a digit run (digit-group underscores are not modelled). -/
def pyToInt (s : String) : Option Int :=
  let cs := ((s.toList.dropWhile (· = ' ')).reverse.dropWhile (· = ' ')).reverse
  match cs with
  | '-' :: rest => (digitsToNat rest).map fun n => -(n : Int)
  | '+' :: rest => (digitsToNat rest).map fun n => (n : Int)
  | _ => (digitsToNat cs).map fun n => (n : Int)

/-- Resolution of one overwrite subject key (`update_from_json.py` lines
78-112): keys that do not split into exactly two pieces and non-role
subjects are skipped, then (1) id match in the guild, (2) the everyone
special case when the raw id equals `str(guild.id)`, (3) id-to-name lookup
in the snapshot role table followed by name lookup in the guild (an empty
snapshot name is falsy and skipped). -/
def resolveRoleSubject (g : Guild) (snapshot_roles_by_id : List (Int × String))
    (subject_key : String) : Option Role :=
  match pySplitColon subject_key with
  | none => none
  | some (subject_type, raw_id) =>
    if subject_type ≠ "role" then none
    else
      match (pyToInt raw_id).bind g.get_role with
      | some r => some r
      | none =>
        match (if raw_id = toString g.id then g.default_role else none) with
        | some r => some r
        | none =>
          (pyToInt raw_id).bind fun rid =>
            (dlookup rid snapshot_roles_by_id).bind fun snap_name =>
              if snap_name = "" then none else g.role_by_name snap_name

/-- Accumulating loop of `_perm_overwrites_from_json`: unresolved subjects
are dropped, resolved ones are inserted (a Python dict keyed by role
objects compares keys by id; `rinsertRole` replaces the whole entry, which
is observationally equivalent because only the key's id is read later). -/
def rinsertRole {α : Type} (r : Role) (po : α) :
    List (Role × α) → List (Role × α)
  | [] => [(r, po)]
  | (r', po') :: rest =>
    if r'.id = r.id then (r, po) :: rest else (r', po') :: rinsertRole r po rest

def powLoop (g : Guild) (snapshot_roles_by_id : List (Int × String)) :
    List (String × PermRecord) → List (Role × PermissionOverwrite) →
    List (Role × PermissionOverwrite)
  | [], acc => acc
  | (subject_key, perms_dict) :: rest, acc =>
    match resolveRoleSubject g snapshot_roles_by_id subject_key with
    | none => powLoop g snapshot_roles_by_id rest acc
    | some role =>
      powLoop g snapshot_roles_by_id rest
        (rinsertRole role (overwriteFromRecord perms_dict) acc)

/-- Conversion of the snapshot overwrite schema to a mapping usable by
`.edit(overwrites=...)` (`_perm_overwrites_from_json`, lines 60-120). -/
def perm_overwrites_from_json (g : Guild) (overwrites_json : List (String × PermRecord))
    (snapshot_roles_by_id : List (Int × String)) : List (Role × PermissionOverwrite) :=
  powLoop g snapshot_roles_by_id overwrites_json []

end Mihsef

namespace Mihsef

/-! ## Snapshot id-to-name tables -/

/-- Table mapping snapshot role ids to names (`update_from_json.py` lines
321-326); entries whose id or name has the wrong JSON type are skipped. -/
def buildRoleTable (snap_roles : List SnapRole) : List (Int × String) :=
  snap_roles.foldl
    (fun d r =>
      match r.id, r.name with
      | some rid, some nm => dinsert rid nm d
      | _, _ => d)
    []

/-- Table mapping snapshot category ids to names (lines 328-333). -/
def buildCatTable (snap_categories : List SnapCategory) : List (Int × String) :=
  snap_categories.foldl
    (fun d c =>
      match c.id, c.name with
      | some cid, some nm => dinsert cid nm d
      | _, _ => d)
    []

/-- Resolution of a snapshot channel's parent category
(`_resolve_parent_category`, lines 155-174): `parent_id` is mapped through
the snapshot id-to-name table and then looked up among the current
categories; a missing, zero (falsy) or unresolvable parent yields `none`. -/
def resolve_parent_category (snap_ch : SnapChannel)
    (cats_by_name : List (String × Category))
    (snapshot_categories_by_id : List (Int × String)) : Option Category :=
  match snap_ch.parent_id with
  | none => none
  | some pid =>
    if pid = 0 then none
    else
      match dlookup pid snapshot_categories_by_id with
      | none => none
      | some snap_cat_name =>
        if snap_cat_name = "" then none else dlookup snap_cat_name cats_by_name

/-! ## Role position plan -/

/-- Insert into a list sorted by `key`, after every element of smaller or
equal key (the insertion step of a stable sort). -/
def insSortedBy {α : Type} (key : α → Int) (x : α) : List α → List α
  | [] => [x]
  | y :: ys => if key y ≤ key x then y :: insSortedBy key x ys else x :: y :: ys

/-- Stable sort by an integer key (Python `sorted` is stable). -/
def stableSortBy {α : Type} (key : α → Int) (xs : List α) : List α :=
  xs.foldl (fun acc x => insSortedBy key x acc) []

/-- Desired role positions (`_role_position_plan`, lines 134-152):
snapshot roles sorted by captured position, resolved by name; unresolved
or unnamed entries are dropped. -/
def role_position_plan (snapshot_roles : List SnapRole)
    (roles_by_name : List (String × Role)) : List (Role × Int) :=
  (stableSortBy (fun r => r.position.getD 0) snapshot_roles).filterMap fun snap =>
    match snap.name with
    | none => none
    | some name =>
      if name = "" then none
      else (dlookup name roles_by_name).map fun role =>
        (role, snap.position.getD role.position)

/-! ## Diff triggers -/

/-- Preview-phase role update trigger (`update_from_json_cmd` lines
346-351): color, hoist, mentionable or the permission bitfield differing
from the snapshot flags the role as an update. -/
def previewRoleTrigger (cur : Role) (r : SnapRole) : Bool :=
  (cur.color != r.color.getD cur.color)
    || (cur.hoist != r.hoist.getD cur.hoist)
    || (cur.mentionable != r.mentionable.getD cur.mentionable)
    || (cur.permissions != r.permissions.getD cur.permissions)

/-- Apply-phase role update decision (`need_edit`, lines 455-459): only
color, hoist and mentionable are compared. -/
def need_edit (role : Role) (r : SnapRole) : Bool :=
  (role.color != r.color.getD role.color)
    || (role.hoist != r.hoist.getD role.hoist)
    || (role.mentionable != r.mentionable.getD role.mentionable)

/-- Role-keyed overwrites of a live channel rendered in the snapshot
schema (lines 363-366): member subjects are filtered out here. -/
def current_overwrites (cur : Channel) : List (String × PermRecord) :=
  cur.overwrites.foldl
    (fun d e =>
      match e.1 with
      | .role rid => dinsert ("role:" ++ toString rid) (overwrite_to_dict e.2) d
      | .member _ => d)
    []

/-- Python equality of two overwrite sets: nested dict equality. -/
def owSetEq (d1 d2 : List (String × PermRecord)) : Bool :=
  (d1.all fun e =>
    match dlookup e.1 d2 with
    | some v => dictEq e.2 v
    | none => false)
  && (d2.all fun e =>
    match dlookup e.1 d1 with
    | some v => dictEq e.2 v
    | none => false)

/-- Preview-phase channel update trigger (lines 369-373): position,
raw parent id, or the role-keyed overwrite set differing flags the channel
for an overwrite/props update. -/
def chanPreviewDiff (cur : Channel) (ch : SnapChannel) : Bool :=
  (cur.position != ch.position.getD cur.position)
    || (cur.categoryId != ch.parent_id)
    || !owSetEq (current_overwrites cur) ch.overwrites

/-! ## Preview computation -/

structure Preview where
  creates_roles : List String := []
  updates_roles : List String := []
  creates_cats : List String := []
  creates_chans : List String := []
  overwrite_updates : List String := []
deriving DecidableEq, Repr

/-- Preview bucket computation (`update_from_json_cmd` lines 337-374).
A category or channel record without a name field would raise a KeyError
inside the original list comprehension (lines 354-355); such records never
occur in documents produced by the snapshot commands and are modelled as
skipped. -/
def buildPreview (snap_roles : List SnapRole) (snap_categories : List SnapCategory)
    (snap_channels : List SnapChannel) (g : Guild) : Preview :=
  let roles_by_name := rolesByName g
  let cats_by_name := catsByName g
  let chans_by_name := chansByName g
  let rolePair := snap_roles.foldl
    (fun (acc : List String × List String) r =>
      match r.name with
      | none => acc
      | some name =>
        if name = "" ∨ name = "@everyone" then acc
        else
          match dlookup name roles_by_name with
          | none => (acc.1 ++ [name], acc.2)
          | some cur => if previewRoleTrigger cur r then (acc.1, acc.2 ++ [name]) else acc)
    ([], [])
  let creates_cats := snap_categories.filterMap fun c =>
    match c.name with
    | none => none
    | some n => if (dlookup n cats_by_name).isSome then none else some n
  let creates_chans := snap_channels.filterMap fun ch =>
    match ch.name with
    | none => none
    | some n => if (dlookup n chans_by_name).isSome then none else some n
  let overwrite_updates := snap_channels.foldl
    (fun acc ch =>
      match ch.name with
      | none => acc
      | some name =>
        if name = "" then acc
        else
          match dlookup name chans_by_name with
          | none => acc
          | some cur => if chanPreviewDiff cur ch then acc ++ [name] else acc)
    []
  { creates_roles := rolePair.1, updates_roles := rolePair.2,
    creates_cats := creates_cats, creates_chans := creates_chans,
    overwrite_updates := overwrite_updates }

def noChangesLine : String := "No changes detected (based on name and attributes)."

/-- Preview description lines (lines 376-390), including the 50-item
truncation of the overwrite bucket and the no-changes fallback. -/
def descLines (pv : Preview) : List String :=
  let l1 := if pv.creates_roles.isEmpty then []
    else ["**Create Roles:** " ++ String.intercalate ", " pv.creates_roles]
  let l2 := if pv.updates_roles.isEmpty then []
    else ["**Update Roles:** " ++ String.intercalate ", " pv.updates_roles]
  let l3 := if pv.creates_cats.isEmpty then []
    else ["**Create Categories:** " ++ String.intercalate ", " pv.creates_cats]
  let l4 := if pv.creates_chans.isEmpty then []
    else ["**Create Channels:** " ++ String.intercalate ", " pv.creates_chans]
  let l5 := if pv.overwrite_updates.isEmpty then []
    else
      let head := String.intercalate ", " (pv.overwrite_updates.take 50)
      let tail := if pv.overwrite_updates.length > 50 then " …" else ""
      ["**Update Overwrites/Props (channels):** " ++ head ++ tail]
  let lines := l1 ++ l2 ++ l3 ++ l4 ++ l5
  if lines.isEmpty then [noChangesLine] else lines

/-- Whether the preview proceeds to the confirmation gate (line 397). -/
def hasChanges (pv : Preview) : Bool :=
  (descLines pv).head? != some noChangesLine

end Mihsef

namespace Mihsef

/-! ## Apply executor

Every mutating API call against the guild is recorded as an `Op`.  The
failure oracle `fails : Nat -> Bool` decides whether the n-th issued call
raises; `attempt` advances the call counter.  Exceptions are modelled by
abort flags: the loops for role create/update, category create and
channel create let a failure escape to the phase-level handler (the
source wraps whole phases in one try/except), while role deletes,
category overwrite edits, channel prop edits and channel overwrite edits
handle failures locally. -/

inductive Op where
  | createRole (name : String) (color : Nat) (hoist : Bool) (mentionable : Bool)
  | editRole (id : Int) (color : Nat) (hoist : Bool) (mentionable : Bool)
  | editRolePositions (assignment : List (Int × Int))
  | deleteRole (r : Role)
  | createCategory (name : String)
  | editCategoryOverwrites (id : Int)
  | createChannel (kind : ChanType) (name : String) (parent : Option Int)
  | editChannelTopic (id : Int) (topic : String)
  | editChannelNsfw (id : Int) (value : Bool)
  | editChannelSlowmode (id : Int) (value : Int)
  | editChannelProps (id : Int)
  | editChannelOverwrites (id : Int)
deriving DecidableEq, Repr

/-- Outcome counters of the apply phase (lines 425-434). -/
structure Results where
  roles_created : Nat := 0
  roles_updated : Nat := 0
  role_position_updates : Nat := 0
  categories_created : Nat := 0
  channels_created : Nat := 0
  channel_updates : Nat := 0
  roles_deleted : Nat := 0
  errors : Nat := 0
deriving DecidableEq, Repr

/-- Executor state: guild, counters, issued-call counter, fresh-id source. -/
structure ExecSt where
  guild : Guild
  res : Results := {}
  idx : Nat := 0
  nextId : Int
deriving Repr

/-- Issue one API call: advance the call counter and report whether this
call raises according to the oracle. -/
def attempt (fails : Nat → Bool) (st : ExecSt) : ExecSt × Bool :=
  ({ st with idx := st.idx + 1 }, fails st.idx)

def ExecSt.addError (st : ExecSt) : ExecSt :=
  { st with res := { st.res with errors := st.res.errors + 1 } }

/-- Smallest id strictly above every id in the guild, used as the fresh-id
source for created entities. -/
def maxUsedId (g : Guild) : Int :=
  (g.roles.map Role.id ++ g.categories.map Category.id ++ g.channels.map Channel.id).foldl
    max g.id

/-! ### Guild mutators (effects of successful API calls) -/

def Guild.addRole (g : Guild) (r : Role) : Guild :=
  { g with roles := g.roles ++ [r] }

def Guild.updateRoleProps (g : Guild) (rid : Int) (color : Nat)
    (hoist mentionable : Bool) : Guild :=
  { g with roles := g.roles.map fun r =>
      if r.id = rid then { r with color := color, hoist := hoist, mentionable := mentionable }
      else r }

def Guild.removeRole (g : Guild) (rid : Int) : Guild :=
  { g with roles := g.roles.filter fun r => r.id ≠ rid }

def Guild.applyPositions (g : Guild) (mapping : List (Role × Int)) : Guild :=
  { g with roles := g.roles.map fun r =>
      match mapping.find? (fun e => e.1.id = r.id) with
      | some e => { r with position := e.2 }
      | none => r }

def Guild.addCategory (g : Guild) (c : Category) : Guild :=
  { g with categories := g.categories ++ [c] }

def Guild.setCategoryOverwrites (g : Guild) (cid : Int)
    (ows : List (OwSubject × PermissionOverwrite)) : Guild :=
  { g with categories := g.categories.map fun c =>
      if c.id = cid then { c with overwrites := ows } else c }

def Guild.addChannel (g : Guild) (c : Channel) : Guild :=
  { g with channels := g.channels ++ [c] }

def Guild.setChannelOverwrites (g : Guild) (cid : Int)
    (ows : List (OwSubject × PermissionOverwrite)) : Guild :=
  { g with channels := g.channels.map fun c =>
      if c.id = cid then { c with overwrites := ows } else c }

/-- Keyword arguments of a channel `.edit` call. -/
structure EditArgs where
  category : Option Category := none
  topic : Option String := none
  nsfw : Option Bool := none
  slowmode_delay : Option Int := none
deriving DecidableEq, Repr

def EditArgs.isEmpty (k : EditArgs) : Bool :=
  k.category.isNone && k.topic.isNone && k.nsfw.isNone && k.slowmode_delay.isNone

def Channel.applyEdit (c : Channel) (k : EditArgs) : Channel :=
  { c with
    categoryId := match k.category with | some cat => some cat.id | none => c.categoryId,
    topic := match k.topic with | some t => some t | none => c.topic,
    nsfw := k.nsfw.getD c.nsfw,
    slowmode_delay := k.slowmode_delay.getD c.slowmode_delay }

def Guild.editChannel (g : Guild) (cid : Int) (k : EditArgs) : Guild :=
  { g with channels := g.channels.map fun c =>
      if c.id = cid then c.applyEdit k else c }

/-- Decoded overwrite mapping rendered back into guild state: the dict is
keyed by role objects, of which only the id survives. -/
def owMappingToSubjects (m : List (Role × PermissionOverwrite)) :
    List (OwSubject × PermissionOverwrite) :=
  m.map fun e => (.role e.1.id, e.2)

/-! ### Phase 1: roles -/

/-- Role create/update loop (lines 438-467).  The whole loop sits in one
try/except, so the first failing create or edit aborts the loop (the
returned flag is `true`); a created role is inserted into `roles_by_name`.
discord.py sends permissions `0` when `create_role` is called without a
permissions argument, and a freshly created role enters at position 1.
After a successful `role.edit` the cached object held by `roles_by_name`
is not refreshed (the gateway event has not been processed yet), matching
the source, which never re-reads it before line 470. -/
def roleCULoop (fails : Nat → Bool) :
    List SnapRole → List (String × Role) → ExecSt →
    (List (String × Role) × ExecSt × List Op × Bool)
  | [], rbn, st => (rbn, st, [], false)
  | r :: rest, rbn, st =>
    match r.name with
    | none => roleCULoop fails rest rbn st
    | some name =>
      if name = "" ∨ name = "@everyone" then roleCULoop fails rest rbn st
      else
        match dlookup name rbn with
        | none =>
          let op := Op.createRole name (r.color.getD 0) (r.hoist.getD false)
            (r.mentionable.getD false)
          let (st1, failed) := attempt fails st
          if failed then (rbn, st1, [op], true)
          else
            let newRole : Role :=
              { id := st1.nextId, name := name, position := 1,
                color := r.color.getD 0, hoist := r.hoist.getD false,
                mentionable := r.mentionable.getD false, managed := false,
                permissions := 0 }
            let st2 := { st1 with
              nextId := st1.nextId + 1,
              guild := st1.guild.addRole newRole,
              res := { st1.res with roles_created := st1.res.roles_created + 1 } }
            let out := roleCULoop fails rest (dinsert name newRole rbn) st2
            (out.1, out.2.1, op :: out.2.2.1, out.2.2.2)
        | some role =>
          if need_edit role r then
            let c := r.color.getD role.color
            let h := r.hoist.getD role.hoist
            let m := r.mentionable.getD role.mentionable
            let op := Op.editRole role.id c h m
            let (st1, failed) := attempt fails st
            if failed then (rbn, st1, [op], true)
            else
              let st2 := { st1 with
                guild := st1.guild.updateRoleProps role.id c h m,
                res := { st1.res with roles_updated := st1.res.roles_updated + 1 } }
              let out := roleCULoop fails rest rbn st2
              (out.1, out.2.1, op :: out.2.2.1, out.2.2.2)
          else roleCULoop fails rest rbn st

/-- Best-effort role repositioning (lines 469-479): `roles_by_name` is
re-read from the guild, the plan is deduplicated into a role-keyed dict,
and a failing `edit_role_positions` call is swallowed without touching the
error counter. -/
def rolePositionsBlock (fails : Nat → Bool) (snap_roles : List SnapRole)
    (st : ExecSt) : ExecSt × List Op :=
  let pos_plan := role_position_plan snap_roles (rolesByName st.guild)
  if pos_plan.isEmpty then (st, [])
  else
    let mapping := pos_plan.foldl (fun m e => rinsertRole e.1 e.2 m) []
    let op := Op.editRolePositions (mapping.map fun e => (e.1.id, e.2))
    let (st1, failed) := attempt fails st
    if failed then (st1, [op])
    else
      ({ st1 with
          guild := st1.guild.applyPositions mapping,
          res := { st1.res with role_position_updates := mapping.length } }, [op])

/-- Names present in the snapshot role list (line 483); the set may
contain `none` for unnamed records, which matches no real role name. -/
def snapshotRoleNames (snap_roles : List SnapRole) : List (Option String) :=
  snap_roles.map SnapRole.name

/-- Deletion candidates (lines 482-484): current roles, deduplicated by
name, whose name is absent from the snapshot, excluding the role named
"@everyone" and managed roles. -/
def rolesToDelete (snap_roles : List SnapRole) (g : Guild) : List Role :=
  ((dictOf Role.name id g.roles).filter fun e =>
      !((snapshotRoleNames snap_roles).contains (some e.1))
        && e.1 != "@everyone" && !e.2.managed).map Prod.snd

/-- Deletion loop (lines 485-490): each delete is individually guarded, a
failure increments the error counter and the loop continues. -/
def deleteRolesLoop (fails : Nat → Bool) :
    List Role → ExecSt → ExecSt × List Op
  | [], st => (st, [])
  | r :: rest, st =>
    let (st1, failed) := attempt fails st
    let st2 :=
      if failed then st1.addError
      else
        { st1 with
          guild := st1.guild.removeRole r.id,
          res := { st1.res with roles_deleted := st1.res.roles_deleted + 1 } }
    let out := deleteRolesLoop fails rest st2
    (out.1, Op.deleteRole r :: out.2)

/-- Role phase (lines 437-493): create/update loop, then repositioning,
then deletion; an escaped exception from the create/update loop adds one
error and skips repositioning and deletion. -/
def applyRolesPhase (fails : Nat → Bool) (snap_roles : List SnapRole)
    (roles_by_name : List (String × Role)) (st : ExecSt) : ExecSt × List Op :=
  match roleCULoop fails snap_roles roles_by_name st with
  | (_, st1, ops, true) => (st1.addError, ops)
  | (_, st1, ops, false) =>
    let (st2, ops2) := rolePositionsBlock fails snap_roles st1
    let (st3, ops3) := deleteRolesLoop fails (rolesToDelete snap_roles st2.guild) st2
    (st3, ops ++ ops2 ++ ops3)

end Mihsef

namespace Mihsef

/-! ### Phase 2: categories -/

/-- Category create loop (lines 497-506), inside the phase try/except: a
failing `create_category` escapes (flag `true`).  The (partially updated)
name dict survives the abort because the source mutates it in place. -/
def catCreateLoop (fails : Nat → Bool) :
    List SnapCategory → List (String × Category) → ExecSt →
    (List (String × Category) × ExecSt × List Op × Bool)
  | [], cbn, st => (cbn, st, [], false)
  | c :: rest, cbn, st =>
    match c.name with
    | none => catCreateLoop fails rest cbn st
    | some name =>
      if name = "" then catCreateLoop fails rest cbn st
      else if (dlookup name cbn).isSome then catCreateLoop fails rest cbn st
      else
        let op := Op.createCategory name
        let (st1, failed) := attempt fails st
        if failed then (cbn, st1, [op], true)
        else
          let cat : Category :=
            { id := st1.nextId, name := name,
              position := st1.guild.categories.length, nsfw := false,
              overwrites := [] }
          let st2 := { st1 with
            nextId := st1.nextId + 1,
            guild := st1.guild.addCategory cat,
            res := { st1.res with
              categories_created := st1.res.categories_created + 1 } }
          let out := catCreateLoop fails rest (dinsert name cat cbn) st2
          (out.1, out.2.1, op :: out.2.2.1, out.2.2.2)

/-- Category overwrite loop (lines 509-523): each `cat.edit` is
individually guarded, a failure increments the error counter and the loop
continues; an empty decoded mapping issues no call. -/
def catOwLoop (fails : Nat → Bool) (snapshot_roles_by_id : List (Int × String)) :
    List SnapCategory → List (String × Category) → ExecSt → ExecSt × List Op
  | [], _, st => (st, [])
  | c :: rest, cbn, st =>
    match c.name with
    | none => catOwLoop fails snapshot_roles_by_id rest cbn st
    | some name =>
      if name = "" then catOwLoop fails snapshot_roles_by_id rest cbn st
      else
        match dlookup name cbn with
        | none => catOwLoop fails snapshot_roles_by_id rest cbn st
        | some cat =>
          let overwrites :=
            perm_overwrites_from_json st.guild c.overwrites snapshot_roles_by_id
          if overwrites.isEmpty then catOwLoop fails snapshot_roles_by_id rest cbn st
          else
            let op := Op.editCategoryOverwrites cat.id
            let (st1, failed) := attempt fails st
            let st2 :=
              if failed then st1.addError
              else { st1 with
                guild := st1.guild.setCategoryOverwrites cat.id
                  (owMappingToSubjects overwrites) }
            let out := catOwLoop fails snapshot_roles_by_id rest cbn st2
            (out.1, op :: out.2)

/-- Category phase (lines 495-525): create loop, then overwrite loop; an
escaped create failure adds one error and skips the overwrite loop. -/
def applyCatsPhase (fails : Nat → Bool) (snapshot_roles_by_id : List (Int × String))
    (snap_categories : List SnapCategory) (cats_by_name : List (String × Category))
    (st : ExecSt) : List (String × Category) × ExecSt × List Op :=
  match catCreateLoop fails snap_categories cats_by_name st with
  | (cbn1, st1, ops, true) => (cbn1, st1.addError, ops)
  | (cbn1, st1, ops, false) =>
    let (st2, ops2) := catOwLoop fails snapshot_roles_by_id snap_categories cbn1 st1
    (cbn1, st2, ops ++ ops2)

/-! ### Phase 3: channels -/

/-- Guarded best-effort topic edit after a text-channel create (lines
553-557): issued only when the record carries a non-null topic; a failure
is silently swallowed. -/
def topicEditStep (fails : Nat → Bool) (ch : SnapChannel) (created : Channel)
    (st : ExecSt) : ExecSt × List Op :=
  match ch.topic with
  | some (some t) =>
    let op := Op.editChannelTopic created.id t
    let (s, failed) := attempt fails st
    if failed then (s, [op])
    else ({ s with guild := s.guild.editChannel created.id { topic := some t } }, [op])
  | _ => (st, [])

/-- Guarded best-effort nsfw edit after a text-channel create (lines
558-562). -/
def nsfwEditStep (fails : Nat → Bool) (ch : SnapChannel) (created : Channel)
    (st : ExecSt) : ExecSt × List Op :=
  match ch.nsfw with
  | some b =>
    let op := Op.editChannelNsfw created.id b
    let (s, failed) := attempt fails st
    if failed then (s, [op])
    else ({ s with guild := s.guild.editChannel created.id { nsfw := some b } }, [op])
  | none => (st, [])

/-- Guarded best-effort slowmode edit after a text-channel create (lines
563-567). -/
def slowmodeEditStep (fails : Nat → Bool) (ch : SnapChannel) (created : Channel)
    (st : ExecSt) : ExecSt × List Op :=
  match ch.slowmode_delay with
  | some v =>
    let op := Op.editChannelSlowmode created.id v
    let (s, failed) := attempt fails st
    if failed then (s, [op])
    else
      ({ s with guild := s.guild.editChannel created.id { slowmode_delay := some v } },
        [op])
  | none => (st, [])

/-- Best-effort text-channel property edits issued right after a create
(lines 552-567): topic, then nsfw, then slowmode, each individually
guarded with failures silently swallowed (no error count). -/
def textPropEdits (fails : Nat → Bool) (ch : SnapChannel) (created : Channel)
    (st : ExecSt) : ExecSt × List Op :=
  let s1 := topicEditStep fails ch created st
  let s2 := nsfwEditStep fails ch created s1.1
  let s3 := slowmodeEditStep fails ch created s2.1
  (s3.1, s1.2 ++ s2.2 ++ s3.2)

/-- Keyword arguments of the update branch (lines 573-585): category move
when a parent resolves and differs, and text-only topic/nsfw/slowmode
comparisons (`x or ""` on an optional string is its value or empty). -/
def chanKwargs (existing : Channel) (ch : SnapChannel) (parent_obj : Option Category) :
    EditArgs :=
  let k0 : EditArgs := {}
  let k1 :=
    match parent_obj with
    | some p => if existing.categoryId ≠ some p.id then { k0 with category := some p } else k0
    | none => k0
  if existing.type = ChanType.text then
    let k2 :=
      match ch.topic.join with
      | some t => if existing.topic.getD "" ≠ t then { k1 with topic := some t } else k1
      | none => k1
    let k3 :=
      match ch.nsfw with
      | some b => if existing.nsfw ≠ b then { k2 with nsfw := some b } else k2
      | none => k2
    match ch.slowmode_delay with
    | some v =>
      if existing.slowmode_delay ≠ v then { k3 with slowmode_delay := some v } else k3
    | none => k3
  else k1

/-- Overwrite step run for every named snapshot channel after the
create/update branch (lines 593-603): the channel is looked up again by
name, an empty decoded mapping issues no call, and a failing edit
increments the error counter locally. -/
def chanOwStep (fails : Nat → Bool) (snapshot_roles_by_id : List (Int × String))
    (ch : SnapChannel) (name : String) (chans_by_name : List (String × Channel))
    (st : ExecSt) : ExecSt × List Op :=
  match dlookup name chans_by_name with
  | none => (st, [])
  | some target =>
    let overwrites := perm_overwrites_from_json st.guild ch.overwrites snapshot_roles_by_id
    if overwrites.isEmpty then (st, [])
    else
      let op := Op.editChannelOverwrites target.id
      let (st1, failed) := attempt fails st
      if failed then (st1.addError, [op])
      else
        ({ st1 with
            guild := st1.guild.setChannelOverwrites target.id
              (owMappingToSubjects overwrites) }, [op])

/-- Create branch of the channel loop (lines 537-569 plus the overwrite
step 593-603 for the created channel): the create call may escape (abort
flag), a created text channel receives the three best-effort prop edits,
the name dict gains the created channel, `channels_created` is bumped and
the overwrite step runs. -/
def chanCreateBranch (fails : Nat → Bool) (snapshot_roles_by_id : List (Int × String))
    (ch : SnapChannel) (name : String) (kind : ChanType) (parent_obj : Option Category)
    (chbn : List (String × Channel)) (st : ExecSt) :
    List (String × Channel) × ExecSt × List Op × Bool :=
  let op := Op.createChannel kind name (parent_obj.map Category.id)
  let (st1, failed) := attempt fails st
  if failed then (chbn, st1, [op], true)
  else
    let created : Channel :=
      { id := st1.nextId, name := name, type := kind,
        position := st1.guild.channels.length,
        categoryId := parent_obj.map Category.id, overwrites := [],
        nsfw := false, slowmode_delay := 0, topic := none }
    let st2 := { st1 with
      nextId := st1.nextId + 1,
      guild := st1.guild.addChannel created }
    let tp :=
      if kind = ChanType.text then textPropEdits fails ch created st2
      else (st2, [])
    let chbn2 := dinsert name created chbn
    let st3 := { tp.1 with
      res := { tp.1.res with channels_created := tp.1.res.channels_created + 1 } }
    let ow := chanOwStep fails snapshot_roles_by_id ch name chbn2 st3
    (chbn2, ow.1, op :: (tp.2 ++ ow.2), false)

/-- Update branch of the channel loop (lines 570-591 plus the overwrite
step 593-603): individually guarded; `channel_updates` is incremented
whenever the branch completes without error, edit call or not. -/
def chanUpdateBranch (fails : Nat → Bool) (snapshot_roles_by_id : List (Int × String))
    (ch : SnapChannel) (name : String) (parent_obj : Option Category)
    (existing : Channel) (chbn : List (String × Channel)) (st : ExecSt) :
    ExecSt × List Op :=
  let kwargs := chanKwargs existing ch parent_obj
  let upd :=
    if kwargs.isEmpty then
      ({ st with
          res := { st.res with channel_updates := st.res.channel_updates + 1 } },
        ([] : List Op))
    else
      let op := Op.editChannelProps existing.id
      let (s1, failed) := attempt fails st
      if failed then (s1.addError, [op])
      else
        ({ s1 with
            guild := s1.guild.editChannel existing.id kwargs,
            res := { s1.res with channel_updates := s1.res.channel_updates + 1 } },
          [op])
  let ow := chanOwStep fails snapshot_roles_by_id ch name chbn upd.1
  (ow.1, upd.2 ++ ow.2)

/-- Channel kind selection of the create branch (lines 539-548): any
unrecognized type string falls back to a text channel. -/
def chanKind (ch_type : String) : ChanType :=
  if ch_type = "voice" then ChanType.voice
  else if ch_type = "forum" then ChanType.forum
  else ChanType.text

/-- Channel loop (lines 529-603).  The create branch lets a failing create
escape to the phase handler; a created channel enters at the end of the
channel list with the parent resolved by id-to-name indirection. -/
def chanLoop (fails : Nat → Bool) (snapshot_roles_by_id snapshot_categories_by_id :
    List (Int × String)) :
    List SnapChannel → List (String × Category) → List (String × Channel) → ExecSt →
    (ExecSt × List Op × Bool)
  | [], _, _, st => (st, [], false)
  | ch :: rest, cbn, chbn, st =>
    match ch.name with
    | none => chanLoop fails snapshot_roles_by_id snapshot_categories_by_id rest cbn chbn st
    | some name =>
      if name = "" then
        chanLoop fails snapshot_roles_by_id snapshot_categories_by_id rest cbn chbn st
      else
        let ch_type := ch.type.getD "text"
        let parent_obj := resolve_parent_category ch cbn snapshot_categories_by_id
        match dlookup name chbn with
        | none =>
          let cr := chanCreateBranch fails snapshot_roles_by_id ch name
            (chanKind ch_type) parent_obj chbn st
          if cr.2.2.2 then (cr.2.1, cr.2.2.1, true)
          else
            let out := chanLoop fails snapshot_roles_by_id snapshot_categories_by_id
              rest cbn cr.1 cr.2.1
            (out.1, cr.2.2.1 ++ out.2.1, out.2.2)
        | some existing =>
          let upd := chanUpdateBranch fails snapshot_roles_by_id ch name parent_obj
            existing chbn st
          let out := chanLoop fails snapshot_roles_by_id snapshot_categories_by_id
            rest cbn chbn upd.1
          (out.1, upd.2 ++ out.2.1, out.2.2)

/-- Channel phase (lines 527-606): an escaped create failure adds one
error and ends the phase. -/
def applyChansPhase (fails : Nat → Bool)
    (snapshot_roles_by_id snapshot_categories_by_id : List (Int × String))
    (snap_channels : List SnapChannel) (cats_by_name : List (String × Category))
    (chans_by_name : List (String × Channel)) (st : ExecSt) : ExecSt × List Op :=
  match chanLoop fails snapshot_roles_by_id snapshot_categories_by_id snap_channels
      cats_by_name chans_by_name st with
  | (st1, ops, true) => (st1.addError, ops)
  | (st1, ops, false) => (st1, ops)

/-! ### The whole apply pipeline -/

/-- Apply executor (lines 424-606): name dicts are collected once before
the role phase (line 335), the category dict is threaded through phase 2
into phase 3, and the three phases run unconditionally one after the
other. -/
def applyAll (fails : Nat → Bool) (snap : LoadedSnapshot) (g : Guild) :
    ExecSt × List Op :=
  let snapshot_roles_by_id := buildRoleTable snap.roles
  let snapshot_categories_by_id := buildCatTable snap.categories
  let roles_by_name := rolesByName g
  let cats_by_name := catsByName g
  let chans_by_name := chansByName g
  let st0 : ExecSt := { guild := g, nextId := maxUsedId g + 1 }
  let (st1, ops1) := applyRolesPhase fails snap.roles roles_by_name st0
  let (cbn1, st2, ops2) :=
    applyCatsPhase fails snapshot_roles_by_id snap.categories cats_by_name st1
  let (st3, ops3) := applyChansPhase fails snapshot_roles_by_id
    snapshot_categories_by_id snap.channels cbn1 chans_by_name st2
  (st3, ops1 ++ ops2 ++ ops3)

/-! ## Command pipeline with the confirmation gate -/

/-- Outcome of the reaction wait (lines 416-422). -/
inductive ConfirmOutcome where
  | confirmed
  | cancelled
  | timedOut
deriving DecidableEq, Repr

structure CmdResult where
  guild : Guild
  ops : List Op
  finalMsg : String
deriving Repr

/-- Final summary lines (lines 608-618). -/
def finalSummaryLines (res : Results) : List String :=
  ["Roles created: " ++ toString res.roles_created,
   "Roles updated: " ++ toString res.roles_updated,
   "Role positions updated: " ++ toString res.role_position_updates,
   "Categories created: " ++ toString res.categories_created,
   "Channels created: " ++ toString res.channels_created,
   "Channels updated/overwrites set: " ++ toString res.channel_updates,
   "Roles deleted: " ++ toString res.roles_deleted,
   "Errors: " ++ toString res.errors]

/-- The `update_from_json` command pipeline (lines 297-625): parse, build
the preview, exit early when nothing changed, otherwise gate the apply run
behind the confirmation outcome.  The preview and confirmation steps are
read-only with respect to the guild; messages and reactions are not guild
mutations and are not traced. -/
def runUpdateCmd (payload : Option SnapshotDoc) (g : Guild)
    (outcome : ConfirmOutcome) (fails : Nat → Bool) : CmdResult :=
  match loadDoc payload with
  | .error e => { guild := g, ops := [], finalMsg := "Could not parse JSON: " ++ e }
  | .ok snap =>
    let pv := buildPreview snap.roles snap.categories snap.channels g
    if hasChanges pv then
      match outcome with
      | .timedOut => { guild := g, ops := [], finalMsg := "Timed out. No changes applied." }
      | .cancelled => { guild := g, ops := [], finalMsg := "Cancelled. No changes applied." }
      | .confirmed =>
        let (st, ops) := applyAll fails snap g
        { guild := st.guild, ops := ops,
          finalMsg := String.intercalate "\n" (finalSummaryLines st.res) }
    else { guild := g, ops := [], finalMsg := noChangesLine }

/-- Final message of an abandoned run. -/
def abortMsg : ConfirmOutcome → String
  | .timedOut => "Timed out. No changes applied."
  | .cancelled => "Cancelled. No changes applied."
  | .confirmed => ""

/-! ## Capture (the snapshot command of `update_from_json.py`) -/

/-- Overwrite subject key written by the capture loops (lines 232 and
248). -/
def subjectKey : OwSubject → String
  | .role i => "role:" ++ toString i
  | .member i => "member:" ++ toString i

/-- Serialized overwrite set of one category or channel (lines 230-233 and
246-249): every subject, role or member, gets an entry. -/
def captureOverwrites (ows : List (OwSubject × PermissionOverwrite)) :
    List (String × PermRecord) :=
  ows.foldl (fun d e => dinsert (subjectKey e.1) (overwrite_to_dict e.2) d) []

def captureRole (r : Role) : SnapRole :=
  { id := some r.id, name := some r.name, position := some r.position,
    color := some r.color, hoist := some r.hoist, mentionable := some r.mentionable,
    managed := some r.managed, permissions := some r.permissions }

def captureCategory (c : Category) : SnapCategory :=
  { id := some c.id, name := some c.name, position := some c.position,
    nsfw := some c.nsfw, overwrites := captureOverwrites c.overwrites }

/-- Channel record written by `snapshot_now` (lines 242-277): voice
channels store a null topic, nsfw false and slowmode 0. -/
def captureChannel (c : Channel) : SnapChannel :=
  match c.type with
  | .voice =>
    { id := some c.id, name := some c.name, type := some "voice",
      position := some c.position, parent_id := c.categoryId,
      overwrites := captureOverwrites c.overwrites, nsfw := some false,
      slowmode_delay := some 0, topic := some none }
  | .forum =>
    { id := some c.id, name := some c.name, type := some "forum",
      position := some c.position, parent_id := c.categoryId,
      overwrites := captureOverwrites c.overwrites, nsfw := some c.nsfw,
      slowmode_delay := some c.slowmode_delay, topic := some c.topic }
  | .text =>
    { id := some c.id, name := some c.name, type := some "text",
      position := some c.position, parent_id := c.categoryId,
      overwrites := captureOverwrites c.overwrites, nsfw := some c.nsfw,
      slowmode_delay := some c.slowmode_delay, topic := some c.topic }

/-- Snapshot document produced by the `snapshot` command of
`update_from_json.py` (`snapshot_now`, lines 197-277). -/
def snapshotNowDoc (g : Guild) : SnapshotDoc :=
  { roles := some (g.roles.map captureRole),
    categories := some (g.categories.map captureCategory),
    channels := some (g.channels.map captureChannel) }

/-- Subject type of an overwrite key, when the key splits into exactly two
pieces. -/
def subjectTypeOfKey (k : String) : Option String :=
  (pySplitColon k).map Prod.fst

def isRoleKey (k : String) : Bool := subjectTypeOfKey k == some "role"

def isMemberKey (k : String) : Bool := subjectTypeOfKey k == some "member"

end Mihsef

namespace Mihsef

/-! ## Concrete sample inputs used by witnesses and counterexamples -/

/-- Oracle under which no API call fails. -/
def noFail : Nat → Bool := fun _ => false

/-- Oracle under which exactly the first issued API call fails. -/
def failFirst : Nat → Bool := fun i => i == 0

def evR : Role :=
  { id := 1, name := "@everyone", position := 0, color := 0, hoist := false,
    mentionable := false, managed := false, permissions := 0 }

/-- Minimal guild: just the everyone role. -/
def g0 : Guild :=
  { id := 1, name := "g", ownerId := 5, roles := [evR], categories := [], channels := [] }

/-- Snapshot role whose only deviation from a freshly created role is a
nonzero permission bitfield. -/
def modSnap : SnapRole :=
  { name := some "Mod", color := some 0, hoist := some false,
    mentionable := some false, permissions := some 8 }

def snapMod : LoadedSnapshot := { roles := [modSnap], categories := [], channels := [] }

/-- Snapshot requesting two fresh roles. -/
def snapAB : LoadedSnapshot :=
  { roles := [{ name := some "A" }, { name := some "B" }], categories := [], channels := [] }

/-- Live role "Mod" differing from `modSnapPermsOnly` only in permissions. -/
def modR : Role :=
  { id := 7, name := "Mod", position := 1, color := 5, hoist := true,
    mentionable := false, managed := false, permissions := 0 }

/-- Snapshot record for `modR` agreeing on color/hoist/mentionable but not
on the permission bitfield. -/
def modSnapPermsOnly : SnapRole :=
  { name := some "Mod", color := some 5, hoist := some true,
    mentionable := some false, permissions := some 8 }

def gMod : Guild :=
  { id := 1, name := "g", ownerId := 5, roles := [evR, modR], categories := [], channels := [] }

/-- Deletable role: present in the target, absent from the snapshots used
below, neither everyone nor managed. -/
def oldR : Role :=
  { id := 9, name := "Old", position := 1, color := 0, hoist := false,
    mentionable := false, managed := false, permissions := 0 }

def gOld : Guild :=
  { id := 1, name := "g", ownerId := 5, roles := [evR, oldR], categories := [], channels := [] }

def emptySnap : LoadedSnapshot := { roles := [], categories := [], channels := [] }

/-- Text channel with one member-subject overwrite. -/
def chanM : Channel :=
  { id := 3, name := "general", type := ChanType.text, position := 0, categoryId := none,
    overwrites := [(OwSubject.member 42, ⟨[("send_messages", false)]⟩)],
    nsfw := false, slowmode_delay := 0, topic := none }

def gMem : Guild :=
  { id := 1, name := "g", ownerId := 5, roles := [evR], categories := [], channels := [chanM] }

/-- Parsed document used by the C7 witness: it previews one role update
against `gMod`. -/
def docMod : SnapshotDoc := { roles := some [modSnapPermsOnly] }

/-- Snapshot channel record matching a live channel on every property the
update branch compares: same name, equal nsfw/slowmode/topic, no parent
and no overwrites. -/
def matchingSnapChannel (c : Channel) : SnapChannel :=
  { name := some c.name, type := none, position := some c.position,
    parent_id := none, overwrites := [], nsfw := some c.nsfw,
    slowmode_delay := some c.slowmode_delay, topic := some c.topic }

/-- Guild used by the C10 witness: no roles, no categories, exactly the
channel `chanM`. -/
def gW : Guild :=
  { id := 1, name := "g", ownerId := 5, roles := [], categories := [], channels := [chanM] }

/-- Whether an operation is a role deletion. -/
def Op.isDeleteRole : Op → Bool
  | .deleteRole _ => true
  | _ => false

end Mihsef

namespace Mihsef

/-! ## Helper lemmas about the dict model -/

theorem mem_dinsert {κ α : Type} [DecidableEq κ] {k : κ} {v : α} {d : List (κ × α)}
    {e : κ × α} (h : e ∈ dinsert k v d) : e = (k, v) ∨ e ∈ d := by
  induction d with
  | nil => simpa [dinsert] using h
  | cons hd tl ih =>
    obtain ⟨k', v'⟩ := hd
    simp only [dinsert] at h
    split at h
    · rcases List.mem_cons.mp h with h | h
      · exact Or.inl h
      · exact Or.inr (List.mem_cons_of_mem _ h)
    · rcases List.mem_cons.mp h with h | h
      · exact Or.inr (by simp [h])
      · rcases ih h with h' | h'
        · exact Or.inl h'
        · exact Or.inr (List.mem_cons_of_mem _ h')

theorem mem_foldl_dinsert {κ α β : Type} [DecidableEq κ] (key : β → κ) (val : β → α) :
    ∀ (xs : List β) (d0 : List (κ × α)) (e : κ × α),
      e ∈ xs.foldl (fun d x => dinsert (key x) (val x) d) d0 →
      e ∈ d0 ∨ ∃ x ∈ xs, e = (key x, val x) := by
  intro xs
  induction xs with
  | nil => intro d0 e h; exact Or.inl h
  | cons hd tl ih =>
    intro d0 e h
    simp only [List.foldl_cons] at h
    rcases ih _ _ h with h' | ⟨x, hx, hex⟩
    · rcases mem_dinsert h' with h'' | h''
      · exact Or.inr ⟨hd, by simp, h''⟩
      · exact Or.inl h''
    · exact Or.inr ⟨x, by simp [hx], hex⟩

theorem dictOf_mem {κ α β : Type} [DecidableEq κ] {key : β → κ} {val : β → α}
    {xs : List β} {e : κ × α} (h : e ∈ dictOf key val xs) :
    ∃ x ∈ xs, e = (key x, val x) := by
  rcases mem_foldl_dinsert key val xs [] e h with h' | h'
  · simp at h'
  · exact h'

/-! ## Helper lemmas about the executor's operation traces -/

/-- Every role scheduled for deletion is neither named "@everyone" nor
managed: the filter of lines 482-484 guarantees it. -/
theorem rolesToDelete_safe {snap_roles : List SnapRole} {g : Guild} {r : Role}
    (h : r ∈ rolesToDelete snap_roles g) :
    r.name ≠ "@everyone" ∧ r.managed = false := by
  simp only [rolesToDelete, List.mem_map] at h
  obtain ⟨e, he, her⟩ := h
  rw [List.mem_filter] at he
  obtain ⟨hmem, hcond⟩ := he
  obtain ⟨x, _, hex⟩ := dictOf_mem hmem
  subst hex
  simp only [id] at her
  subst her
  simp only [Bool.and_eq_true, bne_iff_ne, Bool.not_eq_true'] at hcond
  exact ⟨hcond.1.2, hcond.2⟩

theorem deleteRolesLoop_ops (fails : Nat → Bool) :
    ∀ (roles : List Role) (st : ExecSt),
      (deleteRolesLoop fails roles st).2 = roles.map Op.deleteRole := by
  intro roles
  induction roles with
  | nil => intro st; simp [deleteRolesLoop]
  | cons hd tl ih => intro st; simp [deleteRolesLoop, ih]

theorem roleCULoop_ops (fails : Nat → Bool) :
    ∀ (l : List SnapRole) (rbn : List (String × Role)) (st : ExecSt) (op : Op),
      op ∈ (roleCULoop fails l rbn st).2.2.1 → op.isDeleteRole = false := by
  intro l
  induction l with
  | nil => intro rbn st op h; simp [roleCULoop] at h
  | cons hd tl ih =>
    intro rbn st op h
    simp only [roleCULoop] at h
    split at h
    · exact ih _ _ _ h
    · split at h
      · exact ih _ _ _ h
      · split at h
        · split at h
          · simp only [List.mem_singleton] at h; subst h; rfl
          · rcases List.mem_cons.mp h with h | h
            · subst h; rfl
            · exact ih _ _ _ h
        · split at h
          · split at h
            · simp only [List.mem_singleton] at h; subst h; rfl
            · rcases List.mem_cons.mp h with h | h
              · subst h; rfl
              · exact ih _ _ _ h
          · exact ih _ _ _ h

theorem rolePositionsBlock_ops (fails : Nat → Bool) (snap_roles : List SnapRole)
    (st : ExecSt) (op : Op) (h : op ∈ (rolePositionsBlock fails snap_roles st).2) :
    op.isDeleteRole = false := by
  simp only [rolePositionsBlock] at h
  split at h
  · simp at h
  · split at h
    · simp only [List.mem_singleton] at h; subst h; rfl
    · simp only [List.mem_singleton] at h; subst h; rfl

end Mihsef

namespace Mihsef

theorem catCreateLoop_ops (fails : Nat → Bool) :
    ∀ (l : List SnapCategory) (cbn : List (String × Category)) (st : ExecSt) (op : Op),
      op ∈ (catCreateLoop fails l cbn st).2.2.1 → op.isDeleteRole = false := by
  intro l
  induction l with
  | nil => intro cbn st op h; simp [catCreateLoop] at h
  | cons hd tl ih =>
    intro cbn st op h
    simp only [catCreateLoop] at h
    split at h
    · exact ih _ _ _ h
    · split at h
      · exact ih _ _ _ h
      · split at h
        · exact ih _ _ _ h
        · split at h
          · simp only [List.mem_singleton] at h; subst h; rfl
          · rcases List.mem_cons.mp h with h | h
            · subst h; rfl
            · exact ih _ _ _ h

theorem catOwLoop_ops (fails : Nat → Bool) (tbl : List (Int × String)) :
    ∀ (l : List SnapCategory) (cbn : List (String × Category)) (st : ExecSt) (op : Op),
      op ∈ (catOwLoop fails tbl l cbn st).2 → op.isDeleteRole = false := by
  intro l
  induction l with
  | nil => intro cbn st op h; simp [catOwLoop] at h
  | cons hd tl ih =>
    intro cbn st op h
    simp only [catOwLoop] at h
    split at h
    · exact ih _ _ _ h
    · split at h
      · exact ih _ _ _ h
      · split at h
        · exact ih _ _ _ h
        · split at h
          · exact ih _ _ _ h
          · rcases List.mem_cons.mp h with h | h
            · subst h; rfl
            · exact ih _ _ _ h

theorem topicEditStep_ops (fails : Nat → Bool) (ch : SnapChannel) (created : Channel)
    (st : ExecSt) (op : Op) (h : op ∈ (topicEditStep fails ch created st).2) :
    op.isDeleteRole = false := by
  simp only [topicEditStep] at h
  split at h
  · split at h <;> (simp at h; subst h; rfl)
  · simp at h

theorem nsfwEditStep_ops (fails : Nat → Bool) (ch : SnapChannel) (created : Channel)
    (st : ExecSt) (op : Op) (h : op ∈ (nsfwEditStep fails ch created st).2) :
    op.isDeleteRole = false := by
  simp only [nsfwEditStep] at h
  split at h
  · split at h <;> (simp at h; subst h; rfl)
  · simp at h

theorem slowmodeEditStep_ops (fails : Nat → Bool) (ch : SnapChannel) (created : Channel)
    (st : ExecSt) (op : Op) (h : op ∈ (slowmodeEditStep fails ch created st).2) :
    op.isDeleteRole = false := by
  simp only [slowmodeEditStep] at h
  split at h
  · split at h <;> (simp at h; subst h; rfl)
  · simp at h

theorem textPropEdits_ops (fails : Nat → Bool) (ch : SnapChannel) (created : Channel)
    (st : ExecSt) (op : Op) (h : op ∈ (textPropEdits fails ch created st).2) :
    op.isDeleteRole = false := by
  simp only [textPropEdits] at h
  rcases List.mem_append.mp h with h | h
  · rcases List.mem_append.mp h with h | h
    · exact topicEditStep_ops _ _ _ _ _ h
    · exact nsfwEditStep_ops _ _ _ _ _ h
  · exact slowmodeEditStep_ops _ _ _ _ _ h

theorem chanOwStep_ops (fails : Nat → Bool) (tbl : List (Int × String))
    (ch : SnapChannel) (name : String) (chbn : List (String × Channel))
    (st : ExecSt) (op : Op) (h : op ∈ (chanOwStep fails tbl ch name chbn st).2) :
    op.isDeleteRole = false := by
  simp only [chanOwStep] at h
  split at h
  · simp at h
  · split at h
    · simp at h
    · split at h <;> (simp only [List.mem_singleton] at h; subst h; rfl)

theorem chanCreateBranch_ops (fails : Nat → Bool) (tblR : List (Int × String))
    (ch : SnapChannel) (name : String) (kind : ChanType) (parent_obj : Option Category)
    (chbn : List (String × Channel)) (st : ExecSt) (op : Op)
    (h : op ∈ (chanCreateBranch fails tblR ch name kind parent_obj chbn st).2.2.1) :
    op.isDeleteRole = false := by
  simp only [chanCreateBranch] at h
  split at h
  · simp at h; subst h; rfl
  · rcases List.mem_cons.mp h with h | h
    · subst h; rfl
    · rcases List.mem_append.mp h with h | h
      · split at h
        · exact textPropEdits_ops _ _ _ _ _ h
        · simp at h
      · exact chanOwStep_ops _ _ _ _ _ _ _ h

theorem chanUpdateBranch_ops (fails : Nat → Bool) (tblR : List (Int × String))
    (ch : SnapChannel) (name : String) (parent_obj : Option Category)
    (existing : Channel) (chbn : List (String × Channel)) (st : ExecSt) (op : Op)
    (h : op ∈ (chanUpdateBranch fails tblR ch name parent_obj existing chbn st).2) :
    op.isDeleteRole = false := by
  simp only [chanUpdateBranch] at h
  rcases List.mem_append.mp h with h | h
  · split at h
    · simp at h
    · split at h <;> (simp at h; subst h; rfl)
  · exact chanOwStep_ops _ _ _ _ _ _ _ h

theorem chanLoop_ops (fails : Nat → Bool) (tblR tblC : List (Int × String)) :
    ∀ (l : List SnapChannel) (cbn : List (String × Category))
      (chbn : List (String × Channel)) (st : ExecSt) (op : Op),
      op ∈ (chanLoop fails tblR tblC l cbn chbn st).2.1 → op.isDeleteRole = false := by
  intro l
  induction l with
  | nil => intro cbn chbn st op h; simp [chanLoop] at h
  | cons hd tl ih =>
    intro cbn chbn st op h
    simp only [chanLoop] at h
    split at h
    · exact ih _ _ _ _ h
    · split at h
      · exact ih _ _ _ _ h
      · split at h
        · -- create branch
          split at h
          · exact chanCreateBranch_ops _ _ _ _ _ _ _ _ _ h
          · rcases List.mem_append.mp h with h | h
            · exact chanCreateBranch_ops _ _ _ _ _ _ _ _ _ h
            · exact ih _ _ _ _ h
        · -- update branch
          rcases List.mem_append.mp h with h | h
          · exact chanUpdateBranch_ops _ _ _ _ _ _ _ _ _ h
          · exact ih _ _ _ _ h

end Mihsef

namespace Mihsef

/-- Every role-delete operation issued by the role phase targets a role
from `rolesToDelete`, hence neither the everyone role nor a managed one. -/
theorem applyRolesPhase_deletes (fails : Nat → Bool) (snap_roles : List SnapRole)
    (rbn : List (String × Role)) (st : ExecSt) (r : Role)
    (h : Op.deleteRole r ∈ (applyRolesPhase fails snap_roles rbn st).2) :
    r.name ≠ "@everyone" ∧ r.managed = false := by
  simp only [applyRolesPhase] at h
  split at h
  next heq =>
    have := roleCULoop_ops fails snap_roles rbn st (Op.deleteRole r) (by rw [heq]; exact h)
    simp [Op.isDeleteRole] at this
  next st1 ops heq =>
    rcases List.mem_append.mp h with h | h
    · rcases List.mem_append.mp h with h | h
      · have := roleCULoop_ops fails snap_roles rbn st (Op.deleteRole r) (by rw [heq]; exact h)
        simp [Op.isDeleteRole] at this
      · have := rolePositionsBlock_ops fails snap_roles st1 (Op.deleteRole r) h
        simp [Op.isDeleteRole] at this
    · rw [deleteRolesLoop_ops] at h
      rcases List.mem_map.mp h with ⟨r', hr', heq'⟩
      rw [Op.deleteRole.injEq] at heq'
      subst heq'
      exact rolesToDelete_safe hr'

/-- The category phase issues no role-delete operation. -/
theorem applyCatsPhase_no_delete (fails : Nat → Bool) (tbl : List (Int × String))
    (snap_categories : List SnapCategory) (cbn : List (String × Category))
    (st : ExecSt) (op : Op) (h : op ∈ (applyCatsPhase fails tbl snap_categories cbn st).2.2) :
    op.isDeleteRole = false := by
  simp only [applyCatsPhase] at h
  split at h
  next heq =>
    exact catCreateLoop_ops fails snap_categories cbn st op (by rw [heq]; exact h)
  next cbn1 st1 ops heq =>
    rcases List.mem_append.mp h with h | h
    · exact catCreateLoop_ops fails snap_categories cbn st op (by rw [heq]; exact h)
    · exact catOwLoop_ops fails tbl snap_categories cbn1 st1 op h

/-- The channel phase issues no role-delete operation. -/
theorem applyChansPhase_no_delete (fails : Nat → Bool) (tblR tblC : List (Int × String))
    (snap_channels : List SnapChannel) (cbn : List (String × Category))
    (chbn : List (String × Channel)) (st : ExecSt) (op : Op)
    (h : op ∈ (applyChansPhase fails tblR tblC snap_channels cbn chbn st).2) :
    op.isDeleteRole = false := by
  simp only [applyChansPhase] at h
  split at h
  next heq =>
    exact chanLoop_ops fails tblR tblC snap_channels cbn chbn st op (by rw [heq]; exact h)
  next heq =>
    exact chanLoop_ops fails tblR tblC snap_channels cbn chbn st op (by rw [heq]; exact h)

/-- C1.  For every snapshot document and every target server state, a
target role that is named "@everyone" or whose managed flag is true is
never the target of a delete operation issued by the apply executor (and
the `rolesToDelete` computation never contains such a role, by
`rolesToDelete_safe`, which this proof rests on), regardless of the
snapshot's content or of which API calls fail. -/
theorem apply_never_deletes_protected_roles (fails : Nat → Bool)
    (snap : LoadedSnapshot) (g : Guild) (r : Role)
    (h : Op.deleteRole r ∈ (applyAll fails snap g).2) :
    r.name ≠ "@everyone" ∧ r.managed = false := by
  simp only [applyAll] at h
  rcases List.mem_append.mp h with h | h
  · rcases List.mem_append.mp h with h | h
    · exact applyRolesPhase_deletes _ _ _ _ _ h
    · have := applyCatsPhase_no_delete _ _ _ _ _ _ h
      simp [Op.isDeleteRole] at this
  · have := applyChansPhase_no_delete _ _ _ _ _ _ _ _ h
    simp [Op.isDeleteRole] at this

/-- Witness for C1: with an empty snapshot against `gOld`, the role "Old"
is actually deleted, and the theorem yields its safety properties. -/
theorem apply_never_deletes_protected_roles_witness :
    oldR.name ≠ "@everyone" ∧ oldR.managed = false :=
  apply_never_deletes_protected_roles noFail emptySnap gOld oldR (by decide)

end Mihsef

namespace Mihsef

/-! ## Congruence lemmas: the resolver reads only the guild's id and roles -/

theorem resolveRoleSubject_congr (g g' : Guild) (hid : g.id = g'.id)
    (hroles : g.roles = g'.roles) (tbl : List (Int × String)) (k : String) :
    resolveRoleSubject g tbl k = resolveRoleSubject g' tbl k := by
  unfold resolveRoleSubject Guild.get_role Guild.default_role Guild.role_by_name
  rw [hid, hroles]

theorem powLoop_congr (g g' : Guild) (hid : g.id = g'.id) (hroles : g.roles = g'.roles)
    (tbl : List (Int × String)) :
    ∀ (l : List (String × PermRecord)) (acc : List (Role × PermissionOverwrite)),
      powLoop g tbl l acc = powLoop g' tbl l acc := by
  intro l
  induction l with
  | nil => intro acc; rfl
  | cons hd tl ih =>
    intro acc
    obtain ⟨k, pd⟩ := hd
    cases hres : resolveRoleSubject g' tbl k with
    | none =>
      simp only [powLoop, resolveRoleSubject_congr g g' hid hroles tbl k, hres]
      exact ih _
    | some role =>
      simp only [powLoop, resolveRoleSubject_congr g g' hid hroles tbl k, hres]
      exact ih _

theorem perm_overwrites_from_json_congr (g g' : Guild) (hid : g.id = g'.id)
    (hroles : g.roles = g'.roles) (ow : List (String × PermRecord))
    (tbl : List (Int × String)) :
    perm_overwrites_from_json g ow tbl = perm_overwrites_from_json g' ow tbl :=
  powLoop_congr g g' hid hroles tbl ow []

theorem setCategoryOverwrites_roles (g : Guild) (cid : Int)
    (ows : List (OwSubject × PermissionOverwrite)) :
    (g.setCategoryOverwrites cid ows).roles = g.roles ∧
      (g.setCategoryOverwrites cid ows).id = g.id := ⟨rfl, rfl⟩

theorem editChannel_roles (g : Guild) (cid : Int) (k : EditArgs) :
    (g.editChannel cid k).roles = g.roles ∧ (g.editChannel cid k).id = g.id := ⟨rfl, rfl⟩

theorem setChannelOverwrites_roles (g : Guild) (cid : Int)
    (ows : List (OwSubject × PermissionOverwrite)) :
    (g.setChannelOverwrites cid ows).roles = g.roles ∧
      (g.setChannelOverwrites cid ows).id = g.id := ⟨rfl, rfl⟩

theorem addError_guild (st : ExecSt) : st.addError.guild = st.guild := rfl

end Mihsef

namespace Mihsef

/-- The sequence of category-overwrite edits issued by the guarded loop of
lines 509-523 does not depend on which calls fail: a failure is counted
and the loop continues with the same remaining operations. -/
theorem catOwLoop_ops_congr (fails fails' : Nat → Bool) (tbl : List (Int × String)) :
    ∀ (l : List SnapCategory) (cbn : List (String × Category)) (st st' : ExecSt),
      st.guild.id = st'.guild.id → st.guild.roles = st'.guild.roles →
      (catOwLoop fails tbl l cbn st).2 = (catOwLoop fails' tbl l cbn st').2 := by
  intro l
  induction l with
  | nil => intros; rfl
  | cons hd tl ih =>
    intro cbn st st' hid hroles
    cases hname : hd.name with
    | none =>
      simp only [catOwLoop, hname]
      exact ih cbn st st' hid hroles
    | some name =>
      by_cases hn : name = ""
      · simp only [catOwLoop, hname, hn, if_pos rfl]
        exact ih cbn st st' hid hroles
      · cases hl : dlookup name cbn with
        | none =>
          simp only [catOwLoop, hname, hn, if_neg hn, hl]
          exact ih cbn st st' hid hroles
        | some cat =>
          have hpow := perm_overwrites_from_json_congr st.guild st'.guild hid hroles
            hd.overwrites tbl
          simp only [catOwLoop, hname, if_neg hn, hl, hpow]
          split
          · exact ih cbn st st' hid hroles
          · refine congrArg (List.cons _) (ih cbn _ _ ?_ ?_)
            · split <;> split <;> exact hid
            · split <;> split <;> exact hroles

end Mihsef

namespace Mihsef

/-- The channel-overwrite step issues the same operation sequence whatever
fails: the failure branch only counts the error. -/
theorem chanOwStep_ops_congr (fails fails' : Nat → Bool) (tbl : List (Int × String))
    (ch : SnapChannel) (name : String) (chbn : List (String × Channel))
    (st st' : ExecSt) (hid : st.guild.id = st'.guild.id)
    (hroles : st.guild.roles = st'.guild.roles) :
    (chanOwStep fails tbl ch name chbn st).2 = (chanOwStep fails' tbl ch name chbn st').2 := by
  cases hl : dlookup name chbn with
  | none => simp only [chanOwStep, hl]
  | some target =>
    have hpow := perm_overwrites_from_json_congr st.guild st'.guild hid hroles
      ch.overwrites tbl
    simp only [chanOwStep, hl, hpow]
    split
    · rfl
    · split <;> split <;> rfl

/-- The update branch of the channel loop issues the same operation
sequence whatever fails: a failing prop edit is counted and the overwrite
step still runs. -/
theorem chanUpdateBranch_ops_congr (fails fails' : Nat → Bool)
    (tbl : List (Int × String)) (ch : SnapChannel) (name : String)
    (parent_obj : Option Category) (existing : Channel)
    (chbn : List (String × Channel)) (st st' : ExecSt)
    (hid : st.guild.id = st'.guild.id) (hroles : st.guild.roles = st'.guild.roles) :
    (chanUpdateBranch fails tbl ch name parent_obj existing chbn st).2
      = (chanUpdateBranch fails' tbl ch name parent_obj existing chbn st').2 := by
  simp only [chanUpdateBranch]
  split
  · exact congrArg _ (chanOwStep_ops_congr fails fails' tbl ch name chbn _ _ hid hroles)
  · have h1 : ∀ a b : List Op, a = b →
        ([Op.editChannelProps existing.id] ++ a) = ([Op.editChannelProps existing.id] ++ b) :=
      fun a b hab => by rw [hab]
    split <;> split <;>
      exact h1 _ _ (chanOwStep_ops_congr fails fails' tbl ch name chbn _ _
        (by first | exact hid) (by first | exact hroles))

end Mihsef

namespace Mihsef

/-- Accounting of the deletion loop: every planned deletion is attempted,
and each one ends up counted either as deleted or as an error. -/
theorem deleteRolesLoop_accounting (fails : Nat → Bool) :
    ∀ (roles : List Role) (st : ExecSt),
      (deleteRolesLoop fails roles st).1.res.errors
          + (deleteRolesLoop fails roles st).1.res.roles_deleted
        = st.res.errors + st.res.roles_deleted + roles.length := by
  intro roles
  induction roles with
  | nil => intro st; simp [deleteRolesLoop]
  | cons hd tl ih =>
    intro st
    simp only [deleteRolesLoop]
    split
    · rw [ih]
      simp [ExecSt.addError, attempt, List.length_cons]
      omega
    · rw [ih]
      simp [attempt, List.length_cons]
      omega

/-- C2, counterexample.  The claim says a single failing create increments
the error counter and the executor proceeds to the next planned operation.
Against `g0` with a snapshot scheduling the two role creations "A" and
"B", an oracle failing exactly the first call yields one error but a trace
containing only the attempted creation of "A": the creation of "B" (and
everything after it) is never attempted, so a single failing operation
does abort the remaining operations. -/
theorem role_create_failure_aborts_remaining_plan :
    (applyAll failFirst snapAB g0).2 = [Op.createRole "A" 0 false false]
      ∧ (applyAll failFirst snapAB g0).1.res.errors = 1
      ∧ (applyAll failFirst snapAB g0).1.res.roles_created = 0
      ∧ Op.createRole "B" 0 false false ∉ (applyAll failFirst snapAB g0).2 := by
  refine ⟨by decide, by decide, by decide, by decide⟩

/-- C2, amended.  Only the individually guarded operations are
failure-tolerant: (1) the role-deletion loop attempts every planned
deletion whatever fails, (2) with each of them counted either as deleted
or as an error; (3) the category-overwrite loop and (4) the channel
update branch issue the same operation sequence under any two failure
oracles (a failure is counted locally and the loop proceeds).  Role
creates/updates, category creates and channel creates instead abort the
remainder of their phase on failure, as the counterexample shows. -/
theorem guarded_loops_survive_individual_failures :
    (∀ (fails : Nat → Bool) (roles : List Role) (st : ExecSt),
        (deleteRolesLoop fails roles st).2 = roles.map Op.deleteRole)
      ∧ (∀ (fails : Nat → Bool) (roles : List Role) (st : ExecSt),
          (deleteRolesLoop fails roles st).1.res.errors
              + (deleteRolesLoop fails roles st).1.res.roles_deleted
            = st.res.errors + st.res.roles_deleted + roles.length)
      ∧ (∀ (fails fails' : Nat → Bool) (tbl : List (Int × String))
          (l : List SnapCategory) (cbn : List (String × Category)) (st st' : ExecSt),
          st.guild.id = st'.guild.id → st.guild.roles = st'.guild.roles →
          (catOwLoop fails tbl l cbn st).2 = (catOwLoop fails' tbl l cbn st').2)
      ∧ (∀ (fails fails' : Nat → Bool) (tbl : List (Int × String)) (ch : SnapChannel)
          (name : String) (parent_obj : Option Category) (existing : Channel)
          (chbn : List (String × Channel)) (st st' : ExecSt),
          st.guild.id = st'.guild.id → st.guild.roles = st'.guild.roles →
          (chanUpdateBranch fails tbl ch name parent_obj existing chbn st).2
            = (chanUpdateBranch fails' tbl ch name parent_obj existing chbn st').2) :=
  ⟨deleteRolesLoop_ops, deleteRolesLoop_accounting,
    catOwLoop_ops_congr, chanUpdateBranch_ops_congr⟩

/-- Witness for C2's amended statement at concrete inputs: the deletion
loop still deletes under a first-call failure, and the category-overwrite
loop issues identical operations under the all-succeed and first-fails
oracles. -/
theorem guarded_loops_survive_individual_failures_witness :
    (deleteRolesLoop failFirst [oldR, evR] { guild := gOld, nextId := 20 }).2
        = [Op.deleteRole oldR, Op.deleteRole evR]
      ∧ (catOwLoop noFail [] [{ name := some "c" }] [] { guild := gOld, nextId := 20 }).2
          = (catOwLoop failFirst [] [{ name := some "c" }] []
              { guild := gOld, nextId := 20 }).2 := by
  constructor
  · exact guarded_loops_survive_individual_failures.1 failFirst [oldR, evR]
      { guild := gOld, nextId := 20 }
  · exact guarded_loops_survive_individual_failures.2.2.1 noFail failFirst []
      [{ name := some "c" }] [] { guild := gOld, nextId := 20 }
      { guild := gOld, nextId := 20 } rfl rfl

end Mihsef

namespace Mihsef

/-- C3, counterexample.  The live role `modR` and the snapshot record
`modSnapPermsOnly` agree on color, hoist and mentionable and differ only
in the permission bitfield; the apply-phase decision `need_edit` schedules
no update, yet the preview lists the role under role updates, so the
permission bitfield is part of the preview's update trigger, contrary to
the claim. -/
theorem preview_flags_permission_only_drift :
    need_edit modR modSnapPermsOnly = false
      ∧ (buildPreview [modSnapPermsOnly] [] [] gMod).updates_roles = ["Mod"]
      ∧ modR.color = modSnapPermsOnly.color.getD modR.color
      ∧ modR.hoist = modSnapPermsOnly.hoist.getD modR.hoist
      ∧ modR.mentionable = modSnapPermsOnly.mentionable.getD modR.mentionable := by
  refine ⟨by decide, by decide, by decide, by decide, by decide⟩

/-- C3, amended.  The apply-phase update decision compares exactly color,
hoist and mentionable — it is invariant under any change of the snapshot
permission bitfield — while the preview trigger is the apply-phase
trigger extended with a permission-bitfield comparison. -/
theorem role_update_triggers_characterized (cur : Role) (r : SnapRole) :
    (∀ p, need_edit cur { r with permissions := p } = need_edit cur r)
      ∧ previewRoleTrigger cur r
          = (need_edit cur r || (cur.permissions != r.permissions.getD cur.permissions)) :=
  ⟨fun _ => rfl, rfl⟩

end Mihsef

namespace Mihsef

theorem hasRoleId_rinsert {r : Role} {v : PermissionOverwrite}
    {d : List (Role × PermissionOverwrite)} {rid : Int} :
    (∃ e ∈ rinsertRole r v d, e.1.id = rid) ↔ r.id = rid ∨ ∃ e ∈ d, e.1.id = rid := by
  induction d with
  | nil => simp [rinsertRole]
  | cons hd tl ih =>
    obtain ⟨r', v'⟩ := hd
    simp only [rinsertRole]
    split
    next heq =>
      simp only [List.exists_mem_cons_iff]
      constructor
      · rintro (h | h)
        · exact Or.inl h
        · exact Or.inr (Or.inr h)
      · rintro (h | h | h)
        · exact Or.inl h
        · exact Or.inl (heq ▸ h)
        · exact Or.inr h
    next hne =>
      simp only [List.exists_mem_cons_iff] at ih ⊢
      rw [ih]
      tauto

theorem powLoop_hasRoleId (g : Guild) (tbl : List (Int × String)) :
    ∀ (l : List (String × PermRecord)) (acc : List (Role × PermissionOverwrite)) (rid : Int),
      (∃ e ∈ powLoop g tbl l acc, e.1.id = rid) ↔
        (∃ e ∈ acc, e.1.id = rid)
          ∨ ∃ k pd ρ, ((k, pd) ∈ l ∧ resolveRoleSubject g tbl k = some ρ ∧ ρ.id = rid) := by
  intro l
  induction l with
  | nil => intro acc rid; simp [powLoop]
  | cons hd tl ih =>
    intro acc rid
    obtain ⟨k0, pd0⟩ := hd
    cases hres : resolveRoleSubject g tbl k0 with
    | none =>
      simp only [powLoop, hres]
      rw [ih]
      constructor
      · rintro (h | ⟨k, pd, ρ, hmem, hr, hi⟩)
        · exact Or.inl h
        · exact Or.inr ⟨k, pd, ρ, List.mem_cons_of_mem _ hmem, hr, hi⟩
      · rintro (h | ⟨k, pd, ρ, hmem, hr, hi⟩)
        · exact Or.inl h
        · rcases List.mem_cons.mp hmem with heq | hmem'
          · rw [Prod.mk.injEq] at heq
            rw [heq.1] at hr
            rw [hres] at hr
            cases hr
          · exact Or.inr ⟨k, pd, ρ, hmem', hr, hi⟩
    | some ρ0 =>
      simp only [powLoop, hres]
      rw [ih, hasRoleId_rinsert]
      constructor
      · rintro ((h | h) | ⟨k, pd, ρ, hmem, hr, hi⟩)
        · exact Or.inr ⟨k0, pd0, ρ0, List.mem_cons_self _ _, hres, h⟩
        · exact Or.inl h
        · exact Or.inr ⟨k, pd, ρ, List.mem_cons_of_mem _ hmem, hr, hi⟩
      · rintro (h | ⟨k, pd, ρ, hmem, hr, hi⟩)
        · exact Or.inl (Or.inr h)
        · rcases List.mem_cons.mp hmem with heq | hmem'
          · rw [Prod.mk.injEq] at heq
            rw [heq.1] at hr
            rw [hres] at hr
            cases hr with
            | refl => exact Or.inl (Or.inl hi)
          · exact Or.inr ⟨k, pd, ρ, hmem', hr, hi⟩

/-- C4.  Decoding an overwrite set never raises (the embedding is a total
function mirroring the guarded control flow of lines 78-118), and the
decoded mapping contains a role with a given id exactly when some subject
key of the set resolves, through id, the everyone special case, or
id-to-name fallback, to a role with that id: unresolvable subjects are
dropped, every resolvable subject of the same set is decoded. -/
theorem overwrite_decode_domain (g : Guild) (tbl : List (Int × String))
    (ow : List (String × PermRecord)) (rid : Int) :
    (∃ e ∈ perm_overwrites_from_json g ow tbl, e.1.id = rid) ↔
      ∃ k pd ρ, ((k, pd) ∈ ow ∧ resolveRoleSubject g tbl k = some ρ ∧ ρ.id = rid) := by
  rw [perm_overwrites_from_json, powLoop_hasRoleId]
  simp

end Mihsef

namespace Mihsef

/-- C5, counterexample.  A well-formed document missing all three required
top-level keys deserializes successfully to an empty snapshot (lines
317-319 use `.get` with default `[]`); the claim's required-key failure
does not exist. -/
theorem missing_top_level_keys_are_tolerated :
    loadDoc (some { roles := none, categories := none, channels := none, extraKeys := [] })
      = Except.ok { roles := [], categories := [], channels := [] } := rfl

/-- C5, amended.  Deserialization fails exactly when the payload is not
well-formed JSON; missing top-level keys default to empty collections,
and unknown extra top-level fields never affect the result. -/
theorem load_fails_only_on_unparseable (p : Option SnapshotDoc) :
    ((loadDoc p).isOk = true ↔ p ≠ none)
      ∧ ∀ (d : SnapshotDoc) (ks : List String),
          loadDoc (some { d with extraKeys := ks }) = loadDoc (some d) := by
  constructor
  · cases p with
    | none => simp [loadDoc, Except.isOk, Except.toBool]
    | some d => simp [loadDoc, Except.isOk, Except.toBool]
  · intro d ks; rfl

/-- C6.  The claimed idempotence fails on the code: applying `snapMod`
(one role "Mod" with permission bitfield 8) to `g0` completes with zero
errors — the role is created, but `create_role` writes permissions 0 and
the apply phase never touches the bitfield — yet the planner run again on
the resulting guild still lists "Mod" as a role update, because the
preview trigger (line 350) compares the stored bitfield.  The second plan
is therefore not empty. -/
theorem clean_apply_does_not_converge :
    (applyAll noFail snapMod g0).1.res.errors = 0
      ∧ (applyAll noFail snapMod g0).1.res.roles_created = 1
      ∧ (buildPreview snapMod.roles snapMod.categories snapMod.channels
            (applyAll noFail snapMod g0).1.guild).updates_roles = ["Mod"]
      ∧ hasChanges (buildPreview snapMod.roles snapMod.categories snapMod.channels
            (applyAll noFail snapMod g0).1.guild) = true := by
  refine ⟨by decide, by decide, by decide, by decide⟩

/-- C7.  When the confirmation wait ends in cancellation or timeout, the
command issues zero mutating operations and leaves the guild untouched;
when the preview showed changes (so the wait actually happened), the final
message is the respective cancellation/timeout message. -/
theorem no_mutation_without_confirmation (payload : Option SnapshotDoc) (g : Guild)
    (outcome : ConfirmOutcome) (fails : Nat → Bool)
    (h : outcome ≠ ConfirmOutcome.confirmed) :
    (runUpdateCmd payload g outcome fails).guild = g
      ∧ (runUpdateCmd payload g outcome fails).ops = []
      ∧ ∀ d, payload = some d →
          hasChanges (buildPreview (d.roles.getD []) (d.categories.getD [])
              (d.channels.getD []) g) = true →
          (runUpdateCmd payload g outcome fails).finalMsg = abortMsg outcome := by
  cases payload with
  | none =>
    refine ⟨rfl, rfl, ?_⟩
    intro d hd
    cases hd
  | some doc =>
    simp only [runUpdateCmd, loadDoc]
    by_cases hc : hasChanges (buildPreview (doc.roles.getD []) (doc.categories.getD [])
        (doc.channels.getD []) g) = true
    · rw [if_pos hc]
      cases outcome with
      | confirmed => exact absurd rfl h
      | cancelled => exact ⟨rfl, rfl, fun d hd _ => by cases hd; rfl⟩
      | timedOut => exact ⟨rfl, rfl, fun d hd _ => by cases hd; rfl⟩
    · rw [if_neg hc]
      refine ⟨rfl, rfl, ?_⟩
      intro d hd hch
      cases hd
      exact absurd hch hc

/-- Witness for C7 at a concrete input with a nonempty preview and a
timed-out confirmation wait. -/
theorem no_mutation_without_confirmation_witness :
    (runUpdateCmd (some docMod) gMod ConfirmOutcome.timedOut noFail).guild = gMod
      ∧ (runUpdateCmd (some docMod) gMod ConfirmOutcome.timedOut noFail).ops = []
      ∧ (runUpdateCmd (some docMod) gMod ConfirmOutcome.timedOut noFail).finalMsg
          = "Timed out. No changes applied." := by
  obtain ⟨h1, h2, h3⟩ := no_mutation_without_confirmation (some docMod) gMod
    ConfirmOutcome.timedOut noFail (by decide)
  exact ⟨h1, h2, h3 docMod rfl (by decide)⟩

end Mihsef

namespace Mihsef

/-- A key that is not a role key (malformed, member, user, ...) never
resolves: the decoder skips it. -/
theorem isRoleKey_false_resolve_none {k : String} (g : Guild)
    (tbl : List (Int × String)) (h : isRoleKey k = false) :
    resolveRoleSubject g tbl k = none := by
  unfold isRoleKey subjectTypeOfKey at h
  unfold resolveRoleSubject
  cases hs : pySplitColon k with
  | none => simp [hs]
  | some pr =>
    obtain ⟨t, raw⟩ := pr
    rw [hs] at h
    simp only [Option.map_some', beq_iff_eq, Option.some.injEq] at h
    have ht : t ≠ "role" := by
      intro hteq
      rw [hteq] at h
      simp at h
    simp [hs, ht]

theorem powLoop_filter_roleKeys (g : Guild) (tbl : List (Int × String)) :
    ∀ (l : List (String × PermRecord)) (acc : List (Role × PermissionOverwrite)),
      powLoop g tbl l acc = powLoop g tbl (l.filter fun e => isRoleKey e.1) acc := by
  intro l
  induction l with
  | nil => intro acc; rfl
  | cons hd tl ih =>
    intro acc
    obtain ⟨k, pd⟩ := hd
    by_cases hk : isRoleKey k = true
    · rw [List.filter_cons_of_pos (by simpa using hk)]
      cases hres : resolveRoleSubject g tbl k with
      | none => simp only [powLoop, hres]; exact ih acc
      | some role => simp only [powLoop, hres]; exact ih _
    · have hk' : isRoleKey k = false := by
        cases hkk : isRoleKey k
        · rfl
        · exact absurd hkk hk
      rw [List.filter_cons_of_neg (by simpa using hk')]
      simp only [powLoop, isRoleKey_false_resolve_none g tbl hk']
      exact ih acc

/-- Every key of a captured overwrite set is the subject key of one of the
native overwrite subjects. -/
theorem captureOverwrites_key {ows : List (OwSubject × PermissionOverwrite)}
    {e : String × PermRecord} (h : e ∈ captureOverwrites ows) :
    ∃ s : OwSubject, e.1 = subjectKey s := by
  rcases mem_foldl_dinsert (fun x : OwSubject × PermissionOverwrite => subjectKey x.1)
      (fun x => overwrite_to_dict x.2) ows [] e h with h' | ⟨x, _, hx⟩
  · simp at h'
  · exact ⟨x.1, by rw [hx]⟩

theorem captureChannel_overwrites (c : Channel) :
    (captureChannel c).overwrites = captureOverwrites c.overwrites := by
  obtain ⟨i, nm, ty, pos, cat, ow, nsfw, slow, top⟩ := c
  cases ty <;> rfl

/-- C8, counterexample.  The capture of `gMem` (one channel carrying one
member-subject overwrite) contains an overwrite entry whose key is not a
role-subject key. -/
theorem capture_includes_member_overwrites :
    ∃ ch ∈ (snapshotNowDoc gMem).channels.getD [],
      ∃ e ∈ ch.overwrites, isRoleKey e.1 = false := by
  decide

/-- C8, amended.  Member-subject overwrites are included in the captured
document, not excluded: every overwrite key of the captured categories and
channels is the subject key of its native subject — `role:<id>` for role
subjects and `member:<id>` for member subjects — and the exclusion happens
on apply instead: the decoder ignores every entry whose key is not a role
key, so captured member overwrites are never applied. -/
theorem member_overwrites_captured_not_applied :
    (∀ (g : Guild), ∀ ch ∈ (snapshotNowDoc g).channels.getD [],
        ∀ e ∈ ch.overwrites, ∃ s : OwSubject, e.1 = subjectKey s)
      ∧ (∀ (g : Guild), ∀ cat ∈ (snapshotNowDoc g).categories.getD [],
          ∀ e ∈ cat.overwrites, ∃ s : OwSubject, e.1 = subjectKey s)
      ∧ (∀ (g : Guild) (tbl : List (Int × String)) (ow : List (String × PermRecord)),
          perm_overwrites_from_json g ow tbl
            = perm_overwrites_from_json g (ow.filter fun e => isRoleKey e.1) tbl) := by
  refine ⟨?_, ?_, ?_⟩
  · intro g ch hch e he
    simp only [snapshotNowDoc, Option.getD_some, List.mem_map] at hch
    obtain ⟨c, _, hc⟩ := hch
    subst hc
    rw [captureChannel_overwrites] at he
    exact captureOverwrites_key he
  · intro g cat hcat e he
    simp only [snapshotNowDoc, Option.getD_some, List.mem_map] at hcat
    obtain ⟨c, _, hc⟩ := hcat
    subst hc
    exact captureOverwrites_key he
  · intro g tbl ow
    exact powLoop_filter_roleKeys g tbl ow []

/-- Witness for C8's amended statement: the member-keyed entry captured
from `gMem` is the subject key of the member subject 42. -/
theorem member_overwrites_captured_not_applied_witness :
    ∃ s : OwSubject, ("member:42" : String) = subjectKey s :=
  member_overwrites_captured_not_applied.1 gMem (captureChannel chanM) (by decide)
    ("member:42", [("send_messages", some false)]) (by decide)

end Mihsef

namespace Mihsef

/-- C9, counterexample.  `serialize_perms` stores a null for
"kick_members" even though the overwrite has no explicit value for it: an
unset permission round-trips as a stored null, not an absent key. -/
theorem serialize_perms_stores_null :
    ("kick_members", (none : Option Bool))
        ∈ serialize_perms ⟨[("send_messages", false)]⟩
      ∧ dlookup "kick_members"
          (PermissionOverwrite.mk [("send_messages", false)]).values = none := by
  refine ⟨by decide, by decide⟩

/-- C9, amended.  The `update_from_json` encoder `_overwrite_to_dict`
behaves as claimed: it never stores a null and emits `true`/`false`
exactly for the explicitly set permissions among its enumerated
vocabulary.  The `mihsef_snapshot` encoder `serialize_perms` does not: it
emits every permission name of the vocabulary, storing null for each
unset one. -/
theorem encoders_unset_key_handling :
    (∀ (po : PermissionOverwrite) (k : String),
        (k, (none : Option Bool)) ∉ overwrite_to_dict po)
      ∧ (∀ (po : PermissionOverwrite) (k : String) (v : Bool),
          (k, some v) ∈ overwrite_to_dict po
            ↔ k ∈ permission_attrs ∧ dlookup k po.values = some v)
      ∧ (∀ (po : PermissionOverwrite) (k : String) (w : Option Bool),
          (k, w) ∈ serialize_perms po
            ↔ k ∈ validPermNames ∧ dlookup k po.values = w) := by
  refine ⟨?_, ?_, ?_⟩
  · intro po k h
    simp [overwrite_to_dict, List.mem_filterMap, Option.map_eq_some'] at h
  · intro po k v
    simp only [overwrite_to_dict, List.mem_filterMap, Option.map_eq_some',
      Prod.mk.injEq]
    constructor
    · rintro ⟨a, ha, v', hv', hak, hv⟩
      rw [Option.some.injEq] at hv
      subst hak
      subst hv
      exact ⟨ha, hv'⟩
    · rintro ⟨hk, hv⟩
      exact ⟨k, hk, v, hv, rfl, rfl⟩
  · intro po k w
    simp only [serialize_perms, List.mem_map, Prod.mk.injEq]
    constructor
    · rintro ⟨a, ha, hak, hw⟩
      subst hak
      subst hw
      exact ⟨ha, rfl⟩
    · rintro ⟨hk, hw⟩
      exact ⟨k, hk, rfl, hw⟩

end Mihsef

namespace Mihsef

/-- C10.  For a guild holding exactly the channel `c` (any kind, any
properties) and a snapshot whose single channel record matches `c` by name
with no differing property, the apply phase reports one channel update
while issuing no operation at all — the counter counts name matches that
reach the update branch without error, not edits performed. -/
theorem channel_update_counter_without_edit (g : Guild) (c : Channel)
    (fails : Nat → Bool) (hroles : g.roles = []) (hcats : g.categories = [])
    (hchans : g.channels = [c]) (hname : c.name ≠ "") :
    (applyAll fails
        { roles := [], categories := [], channels := [matchingSnapChannel c] }
        g).1.res.channel_updates = 1
      ∧ (applyAll fails
          { roles := [], categories := [], channels := [matchingSnapChannel c] }
          g).2 = []
      ∧ (applyAll fails
          { roles := [], categories := [], channels := [matchingSnapChannel c] }
          g).1.res.errors = 0 := by
  obtain ⟨gid, gname, gowner, groles, gcats, gchans⟩ := g
  simp only at hroles hcats hchans
  subst hroles
  subst hcats
  subst hchans
  obtain ⟨cid, cname, cty, cpos, ccat, cow, cnsfw, cslow, ctop⟩ := c
  simp only at hname
  cases cty <;> cases ctop <;>
    simp [applyAll, applyRolesPhase, roleCULoop, rolePositionsBlock,
      role_position_plan, stableSortBy, rolesToDelete, snapshotRoleNames,
      deleteRolesLoop, applyCatsPhase, catCreateLoop, catOwLoop,
      applyChansPhase, chanLoop, chanUpdateBranch, chanKwargs, chanOwStep,
      perm_overwrites_from_json, powLoop, matchingSnapChannel, rolesByName,
      catsByName, chansByName, dictOf, dinsert, dlookup, buildRoleTable,
      buildCatTable, maxUsedId, resolve_parent_category, EditArgs.isEmpty,
      ExecSt.addError, hname]

end Mihsef

namespace Mihsef

/-- Witness for C10 at the concrete channel `chanM` inside `gW`. -/
theorem channel_update_counter_without_edit_witness :
    (applyAll noFail
        { roles := [], categories := [], channels := [matchingSnapChannel chanM] }
        gW).1.res.channel_updates = 1
      ∧ (applyAll noFail
          { roles := [], categories := [], channels := [matchingSnapChannel chanM] }
          gW).2 = []
      ∧ (applyAll noFail
          { roles := [], categories := [], channels := [matchingSnapChannel chanM] }
          gW).1.res.errors = 0 :=
  channel_update_counter_without_edit gW chanM noFail rfl rfl rfl (by decide)

end Mihsef
